import Mathlib

/-!
# Verification of the periodic-epoch source operator

A shallow embedding of `periodic_epoch_source` from
`src/src/execution/periodic_epoch.rs`: the operator's activation closure is
modelled as a pure step function over an explicit operator state.  Machine
time (`Instant`) is modelled as a natural number of ticks; `Instant::elapsed`
is truncated subtraction (the monotonic clock never runs backwards, and
Rust's `Instant` saturates at zero).  `epoch_length` is modelled as an
integer so that zero and negative durations are expressible.  The reader and
probe are modelled as per-activation oracles: each activation supplies the
result `reader.next()` would return if polled, the bytes `reader.snapshot()`
would return if taken, the current instant, and the probe's frontier
predicate; the step result records whether the reader was actually polled
and whether a snapshot was actually taken.
-/

set_option autoImplicit false

namespace PeriodicEpoch

/-- `StepId`: opaque identifier of the operator instance (string-backed). -/
abbrev StepId := String

/-- `StateKey`: opaque identifier of the state partition (string-backed). -/
abbrev StateKey := String

/-- `StateRecoveryKey { step_id, state_key, epoch }` from the recovery module,
with `epoch` a `u64` timestamp modelled as `Nat`. -/
structure StateRecoveryKey where
  step_id : StepId
  state_key : StateKey
  epoch : Nat
deriving DecidableEq

/-- `State { snapshot, next_awake }`: the recovery payload.  `snapshot` has
the reader's opaque snapshot type `B`; `next_awake : Option<Instant>` with
instants as `Nat`. -/
structure State (B : Type) where
  snapshot : B
  next_awake : Option Nat
deriving DecidableEq

/-- `StateOp`: recovery operation taxonomy.  `periodic_epoch_source` only
ever constructs `Upsert`; `Discard` exists in the taxonomy but is unused
here. -/
inductive StateOp (B : Type) where
  | upsert (state : State B)
  | discard
deriving DecidableEq

/-- `StateUpdate(recovery_key, op)`: the record emitted on the state-update
output. -/
structure StateUpdate (B : Type) where
  key : StateRecoveryKey
  op : StateOp B
deriving DecidableEq

/-- `std::task::Poll<Option<D>>` as returned by `reader.next()`:
`Pending`, `Ready(None)` (end of stream) or `Ready(Some(item))`. -/
inductive Poll (D : Type) where
  | pending
  | ready (item : Option D)
deriving DecidableEq

/-- One emission on one of the operator's two outputs, tagged with the
capability time it was emitted under: `session(&cap).give(...)`. -/
inductive Event (D B : Type) where
  | data (t : Nat) (item : D)
  | stateUpdate (t : Nat) (update : StateUpdate B)
deriving DecidableEq

/-- Timestamp under which an event was emitted. -/
def Event.ts {D B : Type} : Event D B → Nat
  | .data t _ => t
  | .stateUpdate t _ => t

/-- Whether an event is a state-update (snapshot) record. -/
def Event.isSnap {D B : Type} : Event D B → Bool
  | .data _ _ => false
  | .stateUpdate _ _ => true

/-- Whether an event is a data item. -/
def Event.isData {D B : Type} : Event D B → Bool
  | .data _ _ => true
  | .stateUpdate _ _ => false

/-- The mutable state captured by the operator's activation closure:
`output_cap` and `state_update_cap` (a live capability is `some t` with `t`
its time; a dropped capability is `none`), the `eof` flag, and
`epoch_started` (an `Instant`, modelled as ticks). -/
structure OperatorState where
  output_cap : Option Nat
  state_update_cap : Option Nat
  eof : Bool
  epoch_started : Nat
deriving DecidableEq

/-- The environment of a single activation: the current instant, the probe's
`less_than` predicate, what `reader.next()` returns if called this
activation, and what `reader.snapshot()` returns if called. -/
structure ActivationInput (D B : Type) where
  now : Nat
  probe_less_than : Nat → Bool
  next : Poll D
  snapshot : B

/-- Result of the inner `if let (Some(output_cap), Some(state_update_cap))`
body, before the trailing `if eof { ... } else { activator.activate() }`. -/
structure BodyResult (D B : Type) where
  output_cap : Option Nat
  state_update_cap : Option Nat
  eof : Bool
  epoch_started : Nat
  events : List (Event D B)
  polled : Bool
  snapshotted : Bool

/-- Result of one whole activation. `activated` records whether
`activator.activate()` was called at the end. -/
structure ActivationResult (D B : Type) where
  state : OperatorState
  events : List (Event D B)
  polled : Bool
  snapshotted : Bool
  activated : Bool

/-- The epoch clock's rollover test as written in the source:
`epoch_started.elapsed() > epoch_length` — a strict comparison.
`elapsed` is `now - epoch_started`, saturating at zero. -/
def is_elapsed (epoch_length : Int) (epoch_started now : Nat) : Bool :=
  ((now - epoch_started : Nat) : Int) > epoch_length

/-- The rollover test as the specification words it (`is_elapsed()` true iff
`now() - epoch_started >= epoch_length`) — an inclusive comparison, for
refinement comparison against `is_elapsed` above. -/
def is_elapsed_spec (epoch_length : Int) (epoch_started now : Nat) : Bool :=
  ((now - epoch_started : Nat) : Int) ≥ epoch_length

/-- `match reader.next() { Pending => {}, Ready(None) => eof = true,
Ready(Some(item)) => output_wrapper.session(&output_cap).give(item) }`:
returns the new `eof` flag and the data events emitted, given the current
`output_cap` time. -/
def pollReader {D B : Type} (output_cap : Nat) (eof : Bool) (next : Poll D) :
    Bool × List (Event D B) :=
  match next with
  | .pending => (eof, [])
  | .ready none => (true, [])
  | .ready (some item) => (eof, [Event.data output_cap item])

/-- The body of the activation closure: the
`if let (Some(output_cap), Some(state_update_cap))` block.  When both
capabilities are live and the probe gate is open, it optionally rolls the
epoch over (emitting one `StateUpdate` under `state_update_cap`, downgrading
both capabilities to `epoch + 1` and resetting the clock) and then polls the
reader exactly once, emitting any ready item under the (possibly downgraded)
`output_cap`.  The source asserts `output_cap.time() == state_update_cap.time()`
on entry; that assertion is discharged for reachable states by the capability
invariant proved below. -/
def activationBody {D B : Type} (step_id : StepId) (state_key : StateKey)
    (epoch_length : Int) (s : OperatorState) (inp : ActivationInput D B) :
    BodyResult D B :=
  match s.output_cap, s.state_update_cap with
  | some output_cap, some state_update_cap =>
    let epoch := output_cap
    if ¬ inp.probe_less_than epoch then
      if is_elapsed epoch_length s.epoch_started inp.now then
        let recovery_key : StateRecoveryKey :=
          { step_id := step_id, state_key := state_key, epoch := epoch }
        let op : StateOp B := StateOp.upsert { snapshot := inp.snapshot, next_awake := none }
        let update : StateUpdate B := { key := recovery_key, op := op }
        let snapEvent : Event D B := Event.stateUpdate state_update_cap update
        let next_epoch := epoch + 1
        let polled := pollReader next_epoch s.eof inp.next
        { output_cap := some next_epoch, state_update_cap := some next_epoch,
          eof := polled.1, epoch_started := inp.now,
          events := snapEvent :: polled.2, polled := true, snapshotted := true }
      else
        let polled := pollReader output_cap s.eof inp.next
        { output_cap := some output_cap, state_update_cap := some state_update_cap,
          eof := polled.1, epoch_started := s.epoch_started,
          events := polled.2, polled := true, snapshotted := false }
    else
      { output_cap := s.output_cap, state_update_cap := s.state_update_cap,
        eof := s.eof, epoch_started := s.epoch_started,
        events := [], polled := false, snapshotted := false }
  | _, _ =>
    { output_cap := s.output_cap, state_update_cap := s.state_update_cap,
      eof := s.eof, epoch_started := s.epoch_started,
      events := [], polled := false, snapshotted := false }

/-- One whole activation of the operator: the body, then
`if eof { output_cap = None; state_update_cap = None } else { activator.activate() }`. -/
def step {D B : Type} (step_id : StepId) (state_key : StateKey)
    (epoch_length : Int) (s : OperatorState) (inp : ActivationInput D B) :
    ActivationResult D B :=
  let b := activationBody step_id state_key epoch_length s inp
  if b.eof then
    { state := { output_cap := none, state_update_cap := none,
                 eof := b.eof, epoch_started := b.epoch_started },
      events := b.events, polled := b.polled, snapshotted := b.snapshotted,
      activated := false }
  else
    { state := { output_cap := b.output_cap, state_update_cap := b.state_update_cap,
                 eof := b.eof, epoch_started := b.epoch_started },
      events := b.events, polled := b.polled, snapshotted := b.snapshotted,
      activated := true }

/-- Operator state right after `op_builder.build`: both capabilities delayed
to `start_at`, `eof = false`, `epoch_started = Instant::now()` (the build
instant `now0`). -/
def init (start_at now0 : Nat) : OperatorState :=
  { output_cap := some start_at, state_update_cap := some start_at,
    eof := false, epoch_started := now0 }

/-- Run a sequence of activations from state `s`, collecting the emitted
events of all activations in order. -/
def run {D B : Type} (step_id : StepId) (state_key : StateKey)
    (epoch_length : Int) (s : OperatorState) :
    List (ActivationInput D B) → OperatorState × List (Event D B)
  | [] => (s, [])
  | inp :: inps =>
    let r := step step_id state_key epoch_length s inp
    let rest := run step_id state_key epoch_length r.state inps
    (rest.1, r.events ++ rest.2)

/-- The `StateUpdate` record built at a rollover closing epoch `e`:
`StateUpdate((step_id, state_key, epoch), Upsert { snapshot, next_awake: None })`. -/
def rolloverUpdate {B : Type} (sid : StepId) (sk : StateKey) (e : Nat) (snap : B) :
    StateUpdate B :=
  { key := { step_id := sid, state_key := sk, epoch := e },
    op := StateOp.upsert { snapshot := snap, next_awake := none } }

/-- Every data item emitted at a timestamp `t > start_at` is preceded, at a
strictly earlier trace position, by a state-update record emitted at
timestamp `t - 1`. -/
def snapBefore {D B : Type} (start_at : Nat) (tr : List (Event D B)) : Prop :=
  ∀ (i t : Nat) (d : D), tr[i]? = some (Event.data t d) → start_at < t →
    ∃ (j : Nat) (u : StateUpdate B), j < i ∧ tr[j]? = some (Event.stateUpdate (t - 1) u)

/-- Adjacent emissions never jump by more than one timestamp. -/
def adjStep {D B : Type} (a b : Event D B) : Prop :=
  b.ts = a.ts ∨ b.ts = a.ts + 1

/-- Relation between the current live capability time `e` and the trace so
far: either nothing has been emitted yet and `e = start_at`, or the last
emission was a data item at `e`, or the last emission was a state-update at
the closing epoch `e - 1`. -/
def lastLink {D B : Type} (start_at e : Nat) (tr : List (Event D B)) : Prop :=
  (tr = [] ∧ e = start_at) ∨
  (∃ d, tr.getLast? = some (Event.data e d)) ∨
  (∃ ep u, tr.getLast? = some (Event.stateUpdate ep u) ∧ e = ep + 1)

/-- Every emission in the trace is timestamped at most `e`. -/
def tsBound {D B : Type} (e : Nat) (tr : List (Event D B)) : Prop :=
  ∀ ev ∈ tr, Event.ts ev ≤ e

/-- The trace/state relation maintained across activations of a run starting
from `init start_at now0`:
* the two capabilities are equal as options (in particular equal times when
  both live), so the source's `assert!` never fires;
* once `eof` is set the capabilities are dropped;
* while the output capability is live at time `e`, the trace ends as
  `lastLink` describes and is bounded by `e`;
* adjacent emissions never jump by more than one;
* every data item above `start_at` is preceded by the closing snapshot. -/
structure Inv {D B : Type} (start_at : Nat) (tr : List (Event D B))
    (s : OperatorState) : Prop where
  caps_eq : s.output_cap = s.state_update_cap
  eof_dropped : s.eof = true → s.output_cap = none
  live_link : ∀ e, s.output_cap = some e → lastLink start_at e tr
  live_bound : ∀ e, s.output_cap = some e → tsBound e tr
  adj : List.Chain' adjStep tr
  snap_before : snapBefore start_at tr

/-! ## Helper lemmas: appending emissions to a well-formed trace -/

theorem lastLink_data_append {D B : Type} (start_at e : Nat) (tr : List (Event D B)) (d : D) :
    lastLink start_at e (tr ++ [Event.data e d]) :=
  Or.inr (Or.inl ⟨d, List.getLast?_concat tr⟩)

theorem lastLink_snap_append {D B : Type} (start_at e : Nat) (tr : List (Event D B))
    (u : StateUpdate B) :
    lastLink start_at (e + 1) (tr ++ [Event.stateUpdate e u]) :=
  Or.inr (Or.inr ⟨e, u, List.getLast?_concat tr, rfl⟩)

theorem tsBound_append {D B : Type} (e : Nat) (tr : List (Event D B)) (x : Event D B)
    (h : tsBound e tr) (hx : Event.ts x ≤ e) : tsBound e (tr ++ [x]) := by
  intro ev hev
  rcases List.mem_append.mp hev with h1 | h2
  · exact h ev h1
  · rw [List.mem_singleton.mp h2]
    exact hx

theorem tsBound_mono {D B : Type} (e e' : Nat) (tr : List (Event D B)) (hle : e ≤ e')
    (h : tsBound e tr) : tsBound e' tr :=
  fun ev hev => le_trans (h ev hev) hle

theorem adj_append {D B : Type} (start_at e : Nat) (tr : List (Event D B)) (x : Event D B)
    (hadj : List.Chain' adjStep tr) (hl : lastLink start_at e tr) (hx : Event.ts x = e) :
    List.Chain' adjStep (tr ++ [x]) := by
  rw [List.chain'_append]
  refine ⟨hadj, List.chain'_singleton x, ?_⟩
  intro a ha y hy
  simp only [List.head?_cons, Option.mem_some_iff] at hy
  subst hy
  rcases hl with ⟨htr, _⟩ | ⟨d, hd⟩ | ⟨ep, u, hu, hepe⟩
  · subst htr
    simp at ha
  · rw [hd, Option.mem_some_iff] at ha
    subst ha
    left
    rw [hx]
    rfl
  · rw [hu, Option.mem_some_iff] at ha
    subst ha
    right
    rw [hx, hepe]
    rfl

theorem snapBefore_old_index {D B : Type} (start_at : Nat) (tr rest : List (Event D B))
    (h : snapBefore start_at tr) (i t : Nat) (d : D) (hi : i < tr.length)
    (hit : (tr ++ rest)[i]? = some (Event.data t d)) (ht : start_at < t) :
    ∃ (j : Nat) (u : StateUpdate B), j < i ∧
      (tr ++ rest)[j]? = some (Event.stateUpdate (t - 1) u) := by
  rw [List.getElem?_append_left hi] at hit
  obtain ⟨j, u, hj, hju⟩ := h i t d hit ht
  have hjlen : j < tr.length := (List.getElem?_eq_some.mp hju).1
  exact ⟨j, u, hj, by rw [List.getElem?_append_left hjlen]; exact hju⟩

theorem snapBefore_snap_append {D B : Type} (start_at e : Nat) (tr : List (Event D B))
    (u : StateUpdate B) (h : snapBefore start_at tr) :
    snapBefore start_at (tr ++ [Event.stateUpdate e u]) := by
  intro i t d hit ht
  by_cases hi : i < tr.length
  · exact snapBefore_old_index start_at tr _ h i t d hi hit ht
  · exfalso
    push_neg at hi
    rcases Nat.lt_or_ge i (tr.length + 1) with hcase | hcase
    · have hieq : i = tr.length := Nat.le_antisymm (Nat.lt_succ_iff.mp hcase) hi
      subst hieq
      rw [List.getElem?_concat_length] at hit
      exact Event.noConfusion (Option.some.inj hit)
    · rw [List.getElem?_eq_none (by simpa using hcase)] at hit
      exact Option.noConfusion hit

theorem snapBefore_data_append {D B : Type} (start_at e : Nat) (tr : List (Event D B))
    (d : D) (h : snapBefore start_at tr) (hl : lastLink start_at e tr) :
    snapBefore start_at (tr ++ [Event.data e d]) := by
  intro i t d' hit ht
  by_cases hi : i < tr.length
  · exact snapBefore_old_index start_at tr _ h i t d' hi hit ht
  · push_neg at hi
    rcases Nat.lt_or_ge i (tr.length + 1) with hcase | hcase
    · have hieq : i = tr.length := Nat.le_antisymm (Nat.lt_succ_iff.mp hcase) hi
      subst hieq
      rw [List.getElem?_concat_length] at hit
      have hte : t = e := by
        have := Option.some.inj hit
        cases this
        rfl
      subst hte
      rcases hl with ⟨htr, hsa⟩ | ⟨d₀, hd⟩ | ⟨ep, u, hu, hepe⟩
      · omega
      · -- the last element of `tr` is a data item at `t`; recurse on it
        have htrne : tr ≠ [] := by
          intro hnil
          rw [hnil] at hd
          exact Option.noConfusion hd
        have hlast : tr[tr.length - 1]? = some (Event.data t d₀) := by
          rw [← List.getLast?_eq_getElem?]
          exact hd
        obtain ⟨j, u, hj, hju⟩ := h (tr.length - 1) t d₀ hlast ht
        have hjlen : j < tr.length := (List.getElem?_eq_some.mp hju).1
        exact ⟨j, u, Nat.lt_of_lt_of_le hj (Nat.sub_le _ _),
          by rw [List.getElem?_append_left hjlen]; exact hju⟩
      · -- the last element of `tr` is the snapshot at `t - 1`
        have htrne : tr ≠ [] := by
          intro hnil
          rw [hnil] at hu
          exact Option.noConfusion hu
        have hlast : tr[tr.length - 1]? = some (Event.stateUpdate ep u) := by
          rw [← List.getLast?_eq_getElem?]
          exact hu
        have hlen : 0 < tr.length := List.length_pos.mpr htrne
        refine ⟨tr.length - 1, u, Nat.sub_lt hlen Nat.one_pos, ?_⟩
        rw [List.getElem?_append_left (Nat.sub_lt hlen Nat.one_pos)]
        have : ep = t - 1 := by omega
        rw [← this]
        exact hlast
    · rw [List.getElem?_eq_none (by simpa using hcase)] at hit
      exact Option.noConfusion hit

/-! ## Step characterization: one lemma per activation scenario -/

theorem step_dead {D B : Type} (sid : StepId) (sk : StateKey) (el : Int)
    (s : OperatorState) (inp : ActivationInput D B)
    (h1 : s.output_cap = none) (h2 : s.state_update_cap = none) :
    step sid sk el s inp =
      { state := { output_cap := none, state_update_cap := none,
                   eof := s.eof, epoch_started := s.epoch_started },
        events := [], polled := false, snapshotted := false,
        activated := !s.eof } := by
  obtain ⟨oc, sc, eo, est⟩ := s
  simp only at h1 h2
  subst h1 h2
  cases eo <;> simp [step, activationBody]

theorem step_gate_closed {D B : Type} (sid : StepId) (sk : StateKey) (el : Int)
    (s : OperatorState) (inp : ActivationInput D B) (e e' : Nat)
    (h1 : s.output_cap = some e) (h2 : s.state_update_cap = some e')
    (he : s.eof = false) (hp : inp.probe_less_than e = true) :
    step sid sk el s inp =
      { state := { output_cap := some e, state_update_cap := some e',
                   eof := false, epoch_started := s.epoch_started },
        events := [], polled := false, snapshotted := false,
        activated := true } := by
  obtain ⟨oc, sc, eo, est⟩ := s
  simp only at h1 h2 he
  subst h1 h2 he
  simp [step, activationBody, hp]

theorem step_quiet_pending {D B : Type} (sid : StepId) (sk : StateKey) (el : Int)
    (s : OperatorState) (inp : ActivationInput D B) (e e' : Nat)
    (h1 : s.output_cap = some e) (h2 : s.state_update_cap = some e')
    (he : s.eof = false) (hp : inp.probe_less_than e = false)
    (hel : is_elapsed el s.epoch_started inp.now = false)
    (hn : inp.next = Poll.pending) :
    step sid sk el s inp =
      { state := { output_cap := some e, state_update_cap := some e',
                   eof := false, epoch_started := s.epoch_started },
        events := [], polled := true, snapshotted := false,
        activated := true } := by
  obtain ⟨oc, sc, eo, est⟩ := s
  simp only at h1 h2 he hel
  subst h1 h2 he
  simp [step, activationBody, pollReader, hp, hel, hn]

theorem step_quiet_eof {D B : Type} (sid : StepId) (sk : StateKey) (el : Int)
    (s : OperatorState) (inp : ActivationInput D B) (e e' : Nat)
    (h1 : s.output_cap = some e) (h2 : s.state_update_cap = some e')
    (he : s.eof = false) (hp : inp.probe_less_than e = false)
    (hel : is_elapsed el s.epoch_started inp.now = false)
    (hn : inp.next = Poll.ready none) :
    step sid sk el s inp =
      { state := { output_cap := none, state_update_cap := none,
                   eof := true, epoch_started := s.epoch_started },
        events := [], polled := true, snapshotted := false,
        activated := false } := by
  obtain ⟨oc, sc, eo, est⟩ := s
  simp only at h1 h2 he hel
  subst h1 h2 he
  simp [step, activationBody, pollReader, hp, hel, hn]

theorem step_quiet_item {D B : Type} (sid : StepId) (sk : StateKey) (el : Int)
    (s : OperatorState) (inp : ActivationInput D B) (e e' : Nat) (d : D)
    (h1 : s.output_cap = some e) (h2 : s.state_update_cap = some e')
    (he : s.eof = false) (hp : inp.probe_less_than e = false)
    (hel : is_elapsed el s.epoch_started inp.now = false)
    (hn : inp.next = Poll.ready (some d)) :
    step sid sk el s inp =
      { state := { output_cap := some e, state_update_cap := some e',
                   eof := false, epoch_started := s.epoch_started },
        events := [Event.data e d], polled := true, snapshotted := false,
        activated := true } := by
  obtain ⟨oc, sc, eo, est⟩ := s
  simp only at h1 h2 he hel
  subst h1 h2 he
  simp [step, activationBody, pollReader, hp, hel, hn]

theorem step_rollover_pending {D B : Type} (sid : StepId) (sk : StateKey) (el : Int)
    (s : OperatorState) (inp : ActivationInput D B) (e e' : Nat)
    (h1 : s.output_cap = some e) (h2 : s.state_update_cap = some e')
    (he : s.eof = false) (hp : inp.probe_less_than e = false)
    (hel : is_elapsed el s.epoch_started inp.now = true)
    (hn : inp.next = Poll.pending) :
    step sid sk el s inp =
      { state := { output_cap := some (e + 1), state_update_cap := some (e + 1),
                   eof := false, epoch_started := inp.now },
        events := [Event.stateUpdate e' (rolloverUpdate sid sk e inp.snapshot)],
        polled := true, snapshotted := true, activated := true } := by
  obtain ⟨oc, sc, eo, est⟩ := s
  simp only at h1 h2 he hel
  subst h1 h2 he
  simp [step, activationBody, pollReader, rolloverUpdate, hp, hel, hn]

theorem step_rollover_eof {D B : Type} (sid : StepId) (sk : StateKey) (el : Int)
    (s : OperatorState) (inp : ActivationInput D B) (e e' : Nat)
    (h1 : s.output_cap = some e) (h2 : s.state_update_cap = some e')
    (he : s.eof = false) (hp : inp.probe_less_than e = false)
    (hel : is_elapsed el s.epoch_started inp.now = true)
    (hn : inp.next = Poll.ready none) :
    step sid sk el s inp =
      { state := { output_cap := none, state_update_cap := none,
                   eof := true, epoch_started := inp.now },
        events := [Event.stateUpdate e' (rolloverUpdate sid sk e inp.snapshot)],
        polled := true, snapshotted := true, activated := false } := by
  obtain ⟨oc, sc, eo, est⟩ := s
  simp only at h1 h2 he hel
  subst h1 h2 he
  simp [step, activationBody, pollReader, rolloverUpdate, hp, hel, hn]

theorem step_rollover_item {D B : Type} (sid : StepId) (sk : StateKey) (el : Int)
    (s : OperatorState) (inp : ActivationInput D B) (e e' : Nat) (d : D)
    (h1 : s.output_cap = some e) (h2 : s.state_update_cap = some e')
    (he : s.eof = false) (hp : inp.probe_less_than e = false)
    (hel : is_elapsed el s.epoch_started inp.now = true)
    (hn : inp.next = Poll.ready (some d)) :
    step sid sk el s inp =
      { state := { output_cap := some (e + 1), state_update_cap := some (e + 1),
                   eof := false, epoch_started := inp.now },
        events := [Event.stateUpdate e' (rolloverUpdate sid sk e inp.snapshot),
                   Event.data (e + 1) d],
        polled := true, snapshotted := true, activated := true } := by
  obtain ⟨oc, sc, eo, est⟩ := s
  simp only at h1 h2 he hel
  subst h1 h2 he
  simp [step, activationBody, pollReader, rolloverUpdate, hp, hel, hn]

/-! ## The invariant is established at `init` and preserved by `step` -/

theorem inv_init {D B : Type} (start_at now0 : Nat) :
    Inv (D := D) (B := B) start_at [] (init start_at now0) := by
  refine ⟨rfl, ?_, ?_, ?_, List.chain'_nil, ?_⟩
  · intro h
    simp [init] at h
  · intro e he
    simp [init] at he
    exact Or.inl ⟨rfl, he.symm⟩
  · intro e _ ev hev
    simp at hev
  · intro i t d hit _
    simp at hit

theorem inv_step {D B : Type} (sid : StepId) (sk : StateKey) (el : Int)
    (start_at : Nat) (tr : List (Event D B)) (s : OperatorState)
    (inp : ActivationInput D B) (h : Inv start_at tr s) :
    Inv start_at (tr ++ (step sid sk el s inp).events)
      (step sid sk el s inp).state := by
  obtain ⟨hcaps, hdrop, hlink, hbound, hadj, hsnap⟩ := h
  rcases hoc : s.output_cap with _ | e
  · -- both capabilities dead: the activation is a no-op on state and trace
    have hsc : s.state_update_cap = none := hcaps ▸ hoc
    rw [step_dead sid sk el s inp hoc hsc]
    exact ⟨rfl, fun _ => rfl, fun e he => Option.noConfusion he,
      fun e he => Option.noConfusion he, by simpa using hadj, by simpa using hsnap⟩
  · have hsc : s.state_update_cap = some e := hcaps ▸ hoc
    have heof : s.eof = false := by
      cases hef : s.eof
      · rfl
      · rw [hdrop hef] at hoc
        exact Option.noConfusion hoc
    have hlinke : lastLink start_at e tr := hlink e hoc
    have hbounde : tsBound e tr := hbound e hoc
    rcases hp : inp.probe_less_than e with _ | _
    · -- gate open
      rcases hel : is_elapsed el s.epoch_started inp.now with _ | _
      · -- no rollover this activation
        rcases hn : inp.next with _ | item
        · rw [step_quiet_pending sid sk el s inp e e hoc hsc heof hp hel hn]
          exact ⟨rfl, fun h => Bool.noConfusion h,
            fun e₀ he₀ => by cases he₀; simpa using hlinke,
            fun e₀ he₀ => by cases he₀; simpa using hbounde,
            by simpa using hadj, by simpa using hsnap⟩
        · rcases item with _ | d
          · rw [step_quiet_eof sid sk el s inp e e hoc hsc heof hp hel hn]
            exact ⟨rfl, fun _ => rfl, fun e₀ he₀ => Option.noConfusion he₀,
              fun e₀ he₀ => Option.noConfusion he₀,
              by simpa using hadj, by simpa using hsnap⟩
          · rw [step_quiet_item sid sk el s inp e e d hoc hsc heof hp hel hn]
            refine ⟨rfl, fun h => Bool.noConfusion h,
              fun e₀ he₀ => by cases he₀; exact lastLink_data_append start_at e tr d,
              fun e₀ he₀ => by
                cases he₀
                exact tsBound_append e tr _ hbounde (le_refl e),
              adj_append start_at e tr _ hadj hlinke rfl,
              snapBefore_data_append start_at e tr d hsnap hlinke⟩
      · -- rollover this activation
        rcases hn : inp.next with _ | item
        · rw [step_rollover_pending sid sk el s inp e e hoc hsc heof hp hel hn]
          refine ⟨rfl, fun h => Bool.noConfusion h,
            fun e₀ he₀ => by cases he₀; exact lastLink_snap_append start_at e tr _,
            fun e₀ he₀ => by
              cases he₀
              exact tsBound_append (e + 1) tr _
                (tsBound_mono e (e + 1) tr (Nat.le_succ e) hbounde) (Nat.le_succ e),
            adj_append start_at e tr _ hadj hlinke rfl,
            snapBefore_snap_append start_at e tr _ hsnap⟩
        · rcases item with _ | d
          · rw [step_rollover_eof sid sk el s inp e e hoc hsc heof hp hel hn]
            exact ⟨rfl, fun _ => rfl, fun e₀ he₀ => Option.noConfusion he₀,
              fun e₀ he₀ => Option.noConfusion he₀,
              adj_append start_at e tr _ hadj hlinke rfl,
              snapBefore_snap_append start_at e tr _ hsnap⟩
          · rw [step_rollover_item sid sk el s inp e e d hoc hsc heof hp hel hn]
            have hmid : lastLink start_at (e + 1)
                (tr ++ [Event.stateUpdate e (rolloverUpdate sid sk e inp.snapshot)]) :=
              lastLink_snap_append start_at e tr _
            have hassoc :
                tr ++ [Event.stateUpdate e (rolloverUpdate sid sk e inp.snapshot),
                       Event.data (e + 1) d] =
                (tr ++ [Event.stateUpdate e (rolloverUpdate sid sk e inp.snapshot)]) ++
                  [Event.data (e + 1) d] := by
              rw [List.append_assoc]
              rfl
            refine ⟨rfl, fun h => Bool.noConfusion h,
              fun e₀ he₀ => ?_, fun e₀ he₀ => ?_, ?_, ?_⟩
            · cases he₀
              rw [hassoc]
              exact lastLink_data_append start_at (e + 1) _ d
            · cases he₀
              rw [hassoc]
              refine tsBound_append (e + 1) _ _ ?_ (le_refl (e + 1))
              exact tsBound_append (e + 1) tr _
                (tsBound_mono e (e + 1) tr (Nat.le_succ e) hbounde) (Nat.le_succ e)
            · rw [hassoc]
              refine adj_append start_at (e + 1) _ _ ?_ hmid rfl
              exact adj_append start_at e tr _ hadj hlinke rfl
            · rw [hassoc]
              refine snapBefore_data_append start_at (e + 1) _ d ?_ hmid
              exact snapBefore_snap_append start_at e tr _ hsnap
    · -- gate closed: no-op apart from re-arming
      rw [step_gate_closed sid sk el s inp e e hoc hsc heof hp]
      exact ⟨rfl, fun h => Bool.noConfusion h,
        fun e₀ he₀ => by cases he₀; simpa using hlinke,
        fun e₀ he₀ => by cases he₀; simpa using hbounde,
        by simpa using hadj, by simpa using hsnap⟩

theorem inv_run {D B : Type} (sid : StepId) (sk : StateKey) (el : Int)
    (start_at : Nat) (tr : List (Event D B)) (s : OperatorState)
    (inps : List (ActivationInput D B)) (h : Inv start_at tr s) :
    Inv start_at (tr ++ (run sid sk el s inps).2) (run sid sk el s inps).1 := by
  induction inps generalizing tr s with
  | nil => simpa [run] using h
  | cons inp inps ih =>
    have h1 := inv_step sid sk el start_at tr s inp h
    have h2 := ih (tr ++ (step sid sk el s inp).events) (step sid sk el s inp).state h1
    simpa [run, List.append_assoc] using h2

/-- Invariant of every trace produced from the freshly built operator. -/
theorem inv_trace {D B : Type} (sid : StepId) (sk : StateKey) (el : Int)
    (start_at now0 : Nat) (inps : List (ActivationInput D B)) :
    Inv start_at (run sid sk el (init start_at now0) inps).2
      (run sid sk el (init start_at now0) inps).1 := by
  have h := inv_run sid sk el start_at [] (init start_at now0) inps
    (inv_init start_at now0)
  simpa using h

/-- Once both capabilities are dropped, every further activation leaves the
state unchanged and emits nothing. -/
theorem run_dead {D B : Type} (sid : StepId) (sk : StateKey) (el : Int)
    (s : OperatorState) (inps : List (ActivationInput D B))
    (h1 : s.output_cap = none) (h2 : s.state_update_cap = none) :
    run sid sk el s inps = (s, []) := by
  induction inps generalizing s with
  | nil => rfl
  | cons inp inps ih =>
    have hs := step_dead sid sk el s inp h1 h2
    have hstate : (step sid sk el s inp).state = s := by
      rw [hs]
      obtain ⟨oc, sc, eo, est⟩ := s
      simp only at h1 h2
      subst h1 h2
      rfl
    have hev : (step sid sk el s inp).events = [] := by rw [hs]
    simp only [run, hstate, hev, ih s h1 h2, List.nil_append]

/-- Shared helper: at a rollover the body downgrades both capabilities to
`epoch + 1`, whatever the reader then returns. -/
theorem body_rollover_caps {D B : Type} (sid : StepId) (sk : StateKey) (el : Int)
    (s : OperatorState) (inp : ActivationInput D B) (e e' : Nat)
    (h1 : s.output_cap = some e) (h2 : s.state_update_cap = some e')
    (hp : inp.probe_less_than e = false)
    (hel : is_elapsed el s.epoch_started inp.now = true) :
    (activationBody sid sk el s inp).output_cap = some (e + 1) ∧
    (activationBody sid sk el s inp).state_update_cap = some (e + 1) := by
  obtain ⟨oc, sc, eo, est⟩ := s
  simp only at h1 h2 hel
  subst h1 h2
  simp [activationBody, hp, hel]

/-! ## Claims -/

/-- C1: in every activation with both capabilities live (at the common time
`e`), the back-pressure gate open and the epoch clock elapsed, exactly one
`StateUpdate` is emitted on the state-update output, timestamped with the
closing epoch `e`, with payload `Upsert { snapshot_bytes = reader.snapshot(),
next_awake := None }` keyed by `(step_id, state_key, e)`, and then both
capabilities are downgraded to exactly `e + 1` — no epoch is skipped. -/
theorem rollover_emits_single_update {D B : Type} (sid : StepId) (sk : StateKey)
    (el : Int) (s : OperatorState) (inp : ActivationInput D B) (e : Nat)
    (h1 : s.output_cap = some e) (h2 : s.state_update_cap = some e)
    (hp : inp.probe_less_than e = false)
    (hel : is_elapsed el s.epoch_started inp.now = true) :
    (step sid sk el s inp).events.filter Event.isSnap =
      [Event.stateUpdate e (rolloverUpdate sid sk e inp.snapshot)] ∧
    (activationBody sid sk el s inp).output_cap = some (e + 1) ∧
    (activationBody sid sk el s inp).state_update_cap = some (e + 1) := by
  refine ⟨?_, body_rollover_caps sid sk el s inp e e h1 h2 hp hel⟩
  obtain ⟨oc, sc, eo, est⟩ := s
  simp only at h1 h2 hel
  subst h1 h2
  rcases hn : inp.next with _ | (_ | d) <;> cases eo <;>
    simp [step, activationBody, pollReader, rolloverUpdate, hp, hel, hn,
      List.filter, Event.isSnap]

/-- C1 witness. -/
theorem rollover_emits_single_update_witness :
    (step "in" "part0" 0 (⟨some 4, some 4, false, 10⟩ : OperatorState)
      (⟨11, fun _ => false, Poll.pending, 7⟩ : ActivationInput Nat Nat)).events.filter
        Event.isSnap =
      [Event.stateUpdate 4 (rolloverUpdate "in" "part0" 4 7)] ∧
    (activationBody "in" "part0" 0 (⟨some 4, some 4, false, 10⟩ : OperatorState)
      (⟨11, fun _ => false, Poll.pending, 7⟩ : ActivationInput Nat Nat)).output_cap =
      some 5 ∧
    (activationBody "in" "part0" 0 (⟨some 4, some 4, false, 10⟩ : OperatorState)
      (⟨11, fun _ => false, Poll.pending, 7⟩ : ActivationInput Nat Nat)).state_update_cap =
      some 5 :=
  rollover_emits_single_update "in" "part0" 0 _ _ 4 rfl rfl rfl rfl

/-- C3: the two capabilities always carry equal times — the equality holds
after every activation from equal-capability states (each activation only
downgrades them pairwise to the same target or drops both), and it holds at
every state reachable from the freshly built operator. -/
theorem caps_locked_in_step {D B : Type} :
    (∀ (sid : StepId) (sk : StateKey) (el : Int) (s : OperatorState)
        (inp : ActivationInput D B),
      s.output_cap = s.state_update_cap →
      (step sid sk el s inp).state.output_cap =
        (step sid sk el s inp).state.state_update_cap) ∧
    (∀ (sid : StepId) (sk : StateKey) (el : Int) (start_at now0 : Nat)
        (inps : List (ActivationInput D B)),
      (run sid sk el (init start_at now0) inps).1.output_cap =
        (run sid sk el (init start_at now0) inps).1.state_update_cap) := by
  constructor
  · intro sid sk el s inp h
    obtain ⟨oc, sc, eo, est⟩ := s
    simp only at h
    subst h
    rcases oc with _ | e
    · cases eo <;> simp [step, activationBody]
    · rcases hp : inp.probe_less_than e with _ | _ <;>
        rcases hel : is_elapsed el est inp.now with _ | _ <;>
        rcases hn : inp.next with _ | (_ | d) <;>
        cases eo <;>
        simp [step, activationBody, pollReader, hp, hel, hn]
  · intro sid sk el start_at now0 inps
    exact (inv_trace sid sk el start_at now0 inps).caps_eq

/-- C3 witness. -/
theorem caps_locked_in_step_witness :
    (step "in" "part0" 3 (⟨some 2, some 2, false, 0⟩ : OperatorState)
      (⟨9, fun _ => false, Poll.ready (some 1), 0⟩ :
        ActivationInput Nat Nat)).state.output_cap =
      (step "in" "part0" 3 (⟨some 2, some 2, false, 0⟩ : OperatorState)
        (⟨9, fun _ => false, Poll.ready (some 1), 0⟩ :
          ActivationInput Nat Nat)).state.state_update_cap ∧
    (run "in" "part0" 3 (init 0 0)
      [(⟨9, fun _ => false, Poll.ready (some 1), 0⟩ :
        ActivationInput Nat Nat)]).1.output_cap =
      (run "in" "part0" 3 (init 0 0)
        [(⟨9, fun _ => false, Poll.ready (some 1), 0⟩ :
          ActivationInput Nat Nat)]).1.state_update_cap :=
  ⟨(caps_locked_in_step (D := Nat) (B := Nat)).1 "in" "part0" 3 _ _ rfl,
   (caps_locked_in_step (D := Nat) (B := Nat)).2 "in" "part0" 3 0 0 _⟩

/-- C4 counterexample: with `epoch_length` of 5 ticks and exactly 5 ticks
elapsed since the epoch began, the code's gate (`elapsed() > epoch_length`,
strict) does not trigger a rollover, although the claim's inclusive `>=`
comparison is satisfied — the operator emits nothing and takes no snapshot
at this activation. -/
theorem elapsed_gate_not_inclusive :
    is_elapsed 5 0 5 = false ∧ is_elapsed_spec 5 0 5 = true ∧
    (step "in" "part0" 5 (init 0 0)
      (⟨5, fun _ => false, Poll.pending, 0⟩ : ActivationInput Nat Nat)).events = [] ∧
    (step "in" "part0" 5 (init 0 0)
      (⟨5, fun _ => false, Poll.pending, 0⟩ :
        ActivationInput Nat Nat)).snapshotted = false := by
  refine ⟨rfl, rfl, rfl, rfl⟩

/-- C4 (amended): the epoch clock's elapsed test, which gates the rollover,
is true iff `now() - epoch_started > epoch_length` — a *strict* comparison:
with both capabilities live and the gate open, the activation emits a
snapshot exactly when strictly more than `epoch_length` has elapsed. -/
theorem rollover_iff_strictly_elapsed {D B : Type} (sid : StepId) (sk : StateKey)
    (el : Int) (s : OperatorState) (inp : ActivationInput D B) (e : Nat)
    (h1 : s.output_cap = some e) (h2 : s.state_update_cap = some e)
    (hp : inp.probe_less_than e = false) :
    (step sid sk el s inp).events.countP Event.isSnap =
      (if ((inp.now - s.epoch_started : Nat) : Int) > el then 1 else 0) ∧
    ((step sid sk el s inp).snapshotted = is_elapsed el s.epoch_started inp.now) := by
  obtain ⟨oc, sc, eo, est⟩ := s
  simp only at h1 h2
  subst h1 h2
  rcases hel : is_elapsed el est inp.now with _ | _ <;>
    rcases hn : inp.next with _ | (_ | d) <;>
    cases eo <;>
    simp only [is_elapsed, decide_eq_false_iff_not, decide_eq_true_eq, not_lt] at hel <;>
    simp [step, activationBody, pollReader, hp, hn, is_elapsed, hel,
      List.countP_cons, Event.isSnap, if_neg, if_pos, not_lt.mpr]

/-- C4 (amended) witness. -/
theorem rollover_iff_strictly_elapsed_witness :
    (step "in" "part0" 5 (⟨some 0, some 0, false, 0⟩ : OperatorState)
      (⟨6, fun _ => false, Poll.pending, 3⟩ :
        ActivationInput Nat Nat)).events.countP Event.isSnap =
      (if ((6 - 0 : Nat) : Int) > 5 then 1 else 0) ∧
    ((step "in" "part0" 5 (⟨some 0, some 0, false, 0⟩ : OperatorState)
      (⟨6, fun _ => false, Poll.pending, 3⟩ :
        ActivationInput Nat Nat)).snapshotted = is_elapsed 5 0 6) :=
  rollover_iff_strictly_elapsed "in" "part0" 5 _ _ 0 rfl rfl rfl

/-- C5: in the activation where the reader is polled and returns
`Ready(None)` (EOF), both capabilities are dropped within that same
activation, the activator is not re-armed, and every later activation
leaves the state untouched and emits nothing on either channel. -/
theorem eof_drops_caps_and_silences {D B : Type} (sid : StepId) (sk : StateKey)
    (el : Int) (s : OperatorState) (inp : ActivationInput D B) (e e' : Nat)
    (h1 : s.output_cap = some e) (h2 : s.state_update_cap = some e')
    (he : s.eof = false) (hp : inp.probe_less_than e = false)
    (hn : inp.next = Poll.ready none) :
    (step sid sk el s inp).state.output_cap = none ∧
    (step sid sk el s inp).state.state_update_cap = none ∧
    (step sid sk el s inp).state.eof = true ∧
    (step sid sk el s inp).activated = false ∧
    ∀ inps : List (ActivationInput D B),
      run sid sk el (step sid sk el s inp).state inps =
        ((step sid sk el s inp).state, []) := by
  rcases hel : is_elapsed el s.epoch_started inp.now with _ | _
  · rw [step_quiet_eof sid sk el s inp e e' h1 h2 he hp hel hn]
    exact ⟨rfl, rfl, rfl, rfl, fun inps => run_dead sid sk el _ inps rfl rfl⟩
  · rw [step_rollover_eof sid sk el s inp e e' h1 h2 he hp hel hn]
    exact ⟨rfl, rfl, rfl, rfl, fun inps => run_dead sid sk el _ inps rfl rfl⟩

/-- C5 witness. -/
theorem eof_drops_caps_and_silences_witness :
    (step "in" "part0" 9 (⟨some 3, some 3, false, 0⟩ : OperatorState)
      (⟨2, fun _ => false, Poll.ready none, 0⟩ :
        ActivationInput Nat Nat)).state.output_cap = none ∧
    (step "in" "part0" 9 (⟨some 3, some 3, false, 0⟩ : OperatorState)
      (⟨2, fun _ => false, Poll.ready none, 0⟩ :
        ActivationInput Nat Nat)).state.state_update_cap = none ∧
    (step "in" "part0" 9 (⟨some 3, some 3, false, 0⟩ : OperatorState)
      (⟨2, fun _ => false, Poll.ready none, 0⟩ :
        ActivationInput Nat Nat)).state.eof = true ∧
    (step "in" "part0" 9 (⟨some 3, some 3, false, 0⟩ : OperatorState)
      (⟨2, fun _ => false, Poll.ready none, 0⟩ :
        ActivationInput Nat Nat)).activated = false ∧
    ∀ inps : List (ActivationInput Nat Nat),
      run "in" "part0" 9
        (step "in" "part0" 9 (⟨some 3, some 3, false, 0⟩ : OperatorState)
          (⟨2, fun _ => false, Poll.ready none, 0⟩ : ActivationInput Nat Nat)).state
        inps =
        ((step "in" "part0" 9 (⟨some 3, some 3, false, 0⟩ : OperatorState)
          (⟨2, fun _ => false, Poll.ready none, 0⟩ :
            ActivationInput Nat Nat)).state, []) :=
  eof_drops_caps_and_silences "in" "part0" 9 _ _ 3 3 rfl rfl rfl rfl rfl

/-- C7: in every activation with both capabilities live and
`probe.less_than(epoch)` true (the back-pressure gate closed), the operator
emits no data item and no snapshot record, and both capabilities keep their
current timestamps. -/
theorem gate_closed_no_emission {D B : Type} (sid : StepId) (sk : StateKey)
    (el : Int) (s : OperatorState) (inp : ActivationInput D B) (e e' : Nat)
    (h1 : s.output_cap = some e) (h2 : s.state_update_cap = some e')
    (he : s.eof = false) (hp : inp.probe_less_than e = true) :
    (step sid sk el s inp).events = [] ∧
    (step sid sk el s inp).state.output_cap = some e ∧
    (step sid sk el s inp).state.state_update_cap = some e' := by
  rw [step_gate_closed sid sk el s inp e e' h1 h2 he hp]
  exact ⟨rfl, rfl, rfl⟩

/-- C7 witness. -/
theorem gate_closed_no_emission_witness :
    (step "in" "part0" 0 (⟨some 6, some 6, false, 0⟩ : OperatorState)
      (⟨50, fun _ => true, Poll.ready (some 8), 1⟩ :
        ActivationInput Nat Nat)).events = [] ∧
    (step "in" "part0" 0 (⟨some 6, some 6, false, 0⟩ : OperatorState)
      (⟨50, fun _ => true, Poll.ready (some 8), 1⟩ :
        ActivationInput Nat Nat)).state.output_cap = some 6 ∧
    (step "in" "part0" 0 (⟨some 6, some 6, false, 0⟩ : OperatorState)
      (⟨50, fun _ => true, Poll.ready (some 8), 1⟩ :
        ActivationInput Nat Nat)).state.state_update_cap = some 6 :=
  gate_closed_no_emission "in" "part0" 0 _ _ 6 6 rfl rfl rfl rfl

/-- C8: for every `epoch_length` (including zero and negative durations),
every single activation polls the reader at most once — exactly once iff
both capabilities are live and the gate is open — and emits at most one
snapshot record: there is no inner loop of rollovers. -/
theorem poll_once_snapshot_at_most_once {D B : Type} (sid : StepId)
    (sk : StateKey) (el : Int) (s : OperatorState) (inp : ActivationInput D B) :
    ((step sid sk el s inp).polled = true ↔
      ∃ e e', s.output_cap = some e ∧ s.state_update_cap = some e' ∧
        inp.probe_less_than e = false) ∧
    (step sid sk el s inp).events.countP Event.isSnap ≤ 1 := by
  obtain ⟨oc, sc, eo, est⟩ := s
  rcases oc with _ | e
  · cases eo <;> simp [step, activationBody]
  · rcases sc with _ | e'
    · cases eo <;> simp [step, activationBody]
    · rcases hp : inp.probe_less_than e with _ | _ <;>
        rcases hel : is_elapsed el est inp.now with _ | _ <;>
        rcases hn : inp.next with _ | (_ | d) <;>
        cases eo <;>
        simp [step, activationBody, pollReader, hp, hel, hn,
          List.countP_cons, Event.isSnap]

/-- C8 witness: a zero epoch length with gate open polls exactly once. -/
theorem poll_once_snapshot_at_most_once_witness :
    ((step "in" "part0" 0 (⟨some 0, some 0, false, 0⟩ : OperatorState)
      (⟨1, fun _ => false, Poll.ready (some 2), 0⟩ :
        ActivationInput Nat Nat)).polled = true ↔
      ∃ e e', (some 0 : Option Nat) = some e ∧ (some 0 : Option Nat) = some e' ∧
        (fun (_ : Nat) => false) e = false) ∧
    (step "in" "part0" 0 (⟨some 0, some 0, false, 0⟩ : OperatorState)
      (⟨1, fun _ => false, Poll.ready (some 2), 0⟩ :
        ActivationInput Nat Nat)).events.countP Event.isSnap ≤ 1 :=
  poll_once_snapshot_at_most_once "in" "part0" 0
    (⟨some 0, some 0, false, 0⟩ : OperatorState)
    (⟨1, fun _ => false, Poll.ready (some 2), 0⟩ : ActivationInput Nat Nat)

/-- C10: in every activation with both capabilities live and the gate
closed, the reader is not polled, no snapshot is taken, the whole operator
state — including the epoch clock `epoch_started` — is unchanged, nothing
is emitted, and the only effect is re-arming the activator. -/
theorem gate_closed_frame {D B : Type} (sid : StepId) (sk : StateKey)
    (el : Int) (s : OperatorState) (inp : ActivationInput D B) (e : Nat)
    (h1 : s.output_cap = some e) (he : s.eof = false)
    (hp : inp.probe_less_than e = true) :
    (step sid sk el s inp).polled = false ∧
    (step sid sk el s inp).snapshotted = false ∧
    (step sid sk el s inp).state = s ∧
    (step sid sk el s inp).events = [] ∧
    (step sid sk el s inp).activated = true := by
  obtain ⟨oc, sc, eo, est⟩ := s
  simp only at h1 he
  subst h1 he
  rcases sc with _ | e'
  · simp [step, activationBody, hp]
  · simp [step, activationBody, hp]

/-- C10 witness. -/
theorem gate_closed_frame_witness :
    (step "in" "part0" 0 (⟨some 6, some 6, false, 42⟩ : OperatorState)
      (⟨50, fun _ => true, Poll.ready (some 8), 1⟩ :
        ActivationInput Nat Nat)).polled = false ∧
    (step "in" "part0" 0 (⟨some 6, some 6, false, 42⟩ : OperatorState)
      (⟨50, fun _ => true, Poll.ready (some 8), 1⟩ :
        ActivationInput Nat Nat)).snapshotted = false ∧
    (step "in" "part0" 0 (⟨some 6, some 6, false, 42⟩ : OperatorState)
      (⟨50, fun _ => true, Poll.ready (some 8), 1⟩ :
        ActivationInput Nat Nat)).state = (⟨some 6, some 6, false, 42⟩ : OperatorState) ∧
    (step "in" "part0" 0 (⟨some 6, some 6, false, 42⟩ : OperatorState)
      (⟨50, fun _ => true, Poll.ready (some 8), 1⟩ :
        ActivationInput Nat Nat)).events = [] ∧
    (step "in" "part0" 0 (⟨some 6, some 6, false, 42⟩ : OperatorState)
      (⟨50, fun _ => true, Poll.ready (some 8), 1⟩ :
        ActivationInput Nat Nat)).activated = true :=
  gate_closed_frame "in" "part0" 0 _ _ 6 rfl rfl rfl

/-- C2: in every trace of the freshly built operator, every emitted data
item with timestamp `t > start_at` is preceded, at a strictly earlier
position on the merged emission order, by a snapshot record emitted at
timestamp `t - 1` — i.e. the snapshot for epoch `e` precedes every data
item of epoch `e + 1`. -/
theorem snapshot_precedes_next_epoch_data {D B : Type} (sid : StepId)
    (sk : StateKey) (el : Int) (start_at now0 : Nat)
    (inps : List (ActivationInput D B)) (i t : Nat) (d : D)
    (hit : (run sid sk el (init start_at now0) inps).2[i]? =
      some (Event.data t d))
    (ht : start_at < t) :
    ∃ (j : Nat) (u : StateUpdate B), j < i ∧
      (run sid sk el (init start_at now0) inps).2[j]? =
        some (Event.stateUpdate (t - 1) u) :=
  (inv_trace sid sk el start_at now0 inps).snap_before i t d hit ht

/-- C2 witness: one activation with rollover and a ready item yields the
trace `[snapshot@0, data@1]`; the data item at epoch 1 is preceded by the
snapshot at epoch 0. -/
theorem snapshot_precedes_next_epoch_data_witness :
    ∃ (j : Nat) (u : StateUpdate Nat), j < 1 ∧
      (run "in" "part0" 0 (init 0 0)
        [(⟨1, fun _ => false, Poll.ready (some 42), 7⟩ :
          ActivationInput Nat Nat)]).2[j]? =
        some (Event.stateUpdate (1 - 1) u) :=
  snapshot_precedes_next_epoch_data "in" "part0" 0 0 0
    [(⟨1, fun _ => false, Poll.ready (some 42), 7⟩ : ActivationInput Nat Nat)]
    1 1 42 rfl Nat.one_pos

/-- C9: in every trace of the freshly built operator, any two consecutively
emitted records (on either output, in the merged emission order) have
timestamps that are equal or differ by exactly one. -/
theorem consecutive_emissions_adjacent {D B : Type} (sid : StepId)
    (sk : StateKey) (el : Int) (start_at now0 : Nat)
    (inps : List (ActivationInput D B)) (i : Nat) (a b : Event D B)
    (ha : (run sid sk el (init start_at now0) inps).2[i]? = some a)
    (hb : (run sid sk el (init start_at now0) inps).2[i + 1]? = some b) :
    Event.ts b = Event.ts a ∨ Event.ts b = Event.ts a + 1 := by
  have hadj := (inv_trace sid sk el start_at now0 inps).adj
  obtain ⟨hia, hga⟩ := List.getElem?_eq_some.mp ha
  obtain ⟨hib, hgb⟩ := List.getElem?_eq_some.mp hb
  have h := List.chain'_iff_get.mp hadj i (by omega)
  rw [List.get_eq_getElem, List.get_eq_getElem] at h
  simp only [hga, hgb] at h
  exact h

/-- C9 witness: in the trace `[snapshot@0, data@1]` the consecutive pair
steps by exactly one. -/
theorem consecutive_emissions_adjacent_witness :
    Event.ts (Event.data 1 (42 : Nat) : Event Nat Nat) =
      Event.ts (Event.stateUpdate 0 (rolloverUpdate "in" "part0" 0 7) :
        Event Nat Nat) ∨
    Event.ts (Event.data 1 (42 : Nat) : Event Nat Nat) =
      Event.ts (Event.stateUpdate 0 (rolloverUpdate "in" "part0" 0 7) :
        Event Nat Nat) + 1 :=
  consecutive_emissions_adjacent "in" "part0" 0 0 0
    [(⟨1, fun _ => false, Poll.ready (some 42), 7⟩ : ActivationInput Nat Nat)]
    0 (Event.stateUpdate 0 (rolloverUpdate "in" "part0" 0 7)) (Event.data 1 42)
    rfl rfl

/-- C6: if, in a single activation from a reachable state with both
capabilities live at `e`, the gate is open, the clock has elapsed, and the
reader returns EOF, then the snapshot for the closing epoch `e` is still
emitted, both capabilities are first advanced to `e + 1` by the body and
only then dropped — and epoch `e + 1` contains zero data items over the
whole emission history. -/
theorem rollover_at_eof_still_snapshots {D B : Type} (sid : StepId)
    (sk : StateKey) (el : Int) (start_at now0 : Nat)
    (inps1 inps2 : List (ActivationInput D B)) (inp : ActivationInput D B)
    (s1 : OperatorState) (tr1 : List (Event D B)) (e : Nat)
    (hrun : run sid sk el (init start_at now0) inps1 = (s1, tr1))
    (hcap : s1.output_cap = some e)
    (hp : inp.probe_less_than e = false)
    (hel : is_elapsed el s1.epoch_started inp.now = true)
    (hn : inp.next = Poll.ready none) :
    (step sid sk el s1 inp).events =
      [Event.stateUpdate e (rolloverUpdate sid sk e inp.snapshot)] ∧
    (activationBody sid sk el s1 inp).output_cap = some (e + 1) ∧
    (activationBody sid sk el s1 inp).state_update_cap = some (e + 1) ∧
    (step sid sk el s1 inp).state.output_cap = none ∧
    (step sid sk el s1 inp).state.state_update_cap = none ∧
    ∀ (i t : Nat) (d : D),
      (tr1 ++ (step sid sk el s1 inp).events ++
        (run sid sk el (step sid sk el s1 inp).state inps2).2)[i]? =
        some (Event.data t d) → t ≠ e + 1 := by
  have hinv := inv_trace sid sk el start_at now0 inps1
  rw [hrun] at hinv
  have hsc : s1.state_update_cap = some e := hinv.caps_eq ▸ hcap
  have heof : s1.eof = false := by
    cases hef : s1.eof
    · rfl
    · rw [hinv.eof_dropped hef] at hcap
      exact Option.noConfusion hcap
  have hstep := step_rollover_eof sid sk el s1 inp e e hcap hsc heof hp hel hn
  have hbody := body_rollover_caps sid sk el s1 inp e e hcap hsc hp hel
  have hbound : tsBound e tr1 := hinv.live_bound e hcap
  have hev : (step sid sk el s1 inp).events =
      [Event.stateUpdate e (rolloverUpdate sid sk e inp.snapshot)] := by
    rw [hstep]
  have hst : (step sid sk el s1 inp).state =
      (⟨none, none, true, inp.now⟩ : OperatorState) := by
    rw [hstep]
  have hdead : run sid sk el (⟨none, none, true, inp.now⟩ : OperatorState) inps2 =
      ((⟨none, none, true, inp.now⟩ : OperatorState), []) :=
    run_dead sid sk el _ inps2 rfl rfl
  refine ⟨hev, hbody.1, hbody.2, by rw [hstep], by rw [hstep], ?_⟩
  intro i t d hit hte
  rw [hev, hst, hdead] at hit
  simp only [List.append_nil] at hit
  by_cases hi : i < tr1.length
  · rw [List.getElem?_append_left hi] at hit
    have hmem := List.getElem?_mem hit
    have := hbound _ hmem
    simp only [Event.ts] at this
    omega
  · push_neg at hi
    rcases Nat.lt_or_ge i (tr1.length + 1) with hcase | hcase
    · have hieq : i = tr1.length := Nat.le_antisymm (Nat.lt_succ_iff.mp hcase) hi
      subst hieq
      rw [List.getElem?_concat_length] at hit
      exact Event.noConfusion (Option.some.inj hit)
    · rw [List.getElem?_eq_none (by simpa using hcase)] at hit
      exact Option.noConfusion hit

/-- C6 witness: EOF exactly at the first rollover — the closing snapshot
for epoch 0 is emitted, the body advances both capabilities to 1, then they
are dropped; no data item at epoch 1 ever appears. -/
theorem rollover_at_eof_still_snapshots_witness :
    (step "in" "part0" 0 (init 0 0)
      (⟨1, fun _ => false, Poll.ready none, 7⟩ : ActivationInput Nat Nat)).events =
      [Event.stateUpdate 0 (rolloverUpdate "in" "part0" 0 7)] ∧
    (activationBody "in" "part0" 0 (init 0 0)
      (⟨1, fun _ => false, Poll.ready none, 7⟩ :
        ActivationInput Nat Nat)).output_cap = some 1 ∧
    (activationBody "in" "part0" 0 (init 0 0)
      (⟨1, fun _ => false, Poll.ready none, 7⟩ :
        ActivationInput Nat Nat)).state_update_cap = some 1 ∧
    (step "in" "part0" 0 (init 0 0)
      (⟨1, fun _ => false, Poll.ready none, 7⟩ :
        ActivationInput Nat Nat)).state.output_cap = none ∧
    (step "in" "part0" 0 (init 0 0)
      (⟨1, fun _ => false, Poll.ready none, 7⟩ :
        ActivationInput Nat Nat)).state.state_update_cap = none ∧
    ∀ (i t : Nat) (d : Nat),
      ([] ++ (step "in" "part0" 0 (init 0 0)
        (⟨1, fun _ => false, Poll.ready none, 7⟩ :
          ActivationInput Nat Nat)).events ++
        (run "in" "part0" 0
          (step "in" "part0" 0 (init 0 0)
            (⟨1, fun _ => false, Poll.ready none, 7⟩ :
              ActivationInput Nat Nat)).state []).2)[i]? =
        some (Event.data t d) → t ≠ 0 + 1 :=
  rollover_at_eof_still_snapshots "in" "part0" 0 0 0 [] []
    (⟨1, fun _ => false, Poll.ready none, 7⟩ : ActivationInput Nat Nat)
    (init 0 0) [] 0 rfl rfl rfl rfl rfl

end PeriodicEpoch
